import Mathlib

/-!
Verification development for the `fd_viewer` persistence layer
(`src/fd_viewer/core/database/models.py` and `src/fd_viewer/core/database/db.py`).

Modelling conventions:

* A `FixedDeposit` row is a record with the nine fields of the SQLModel table
  model `FixedDeposit` (the eight fields of `FixedDepositModel` plus the
  primary key `id`).  Calendar dates are represented as `Int` day ordinals and
  the exact-decimal fields as `Rat`; neither representation choice is load
  bearing for the claims below.
* The database state is the list of stored rows.  SQLite assigns the primary
  key of a freshly inserted row as one more than the largest rowid in use
  (`maxId`), starting from 1 on an empty table.
* Dynamic attribute access by string name (`getattr` in `select_fd`,
  `setattr` in `update_fd`) is modelled by `getField` / `applyUpdate` over the
  closed set of model field names (`knownField`).  `getattr(FixedDeposit, k)`
  for an unknown `k` raises `AttributeError`, caught by the surrounding
  `except Exception` handler of the read, which returns `None`.  `setattr` on
  a `table=True` SQLModel instance behaves differently: for a name that is
  not among the model's fields, `SQLModel.__setattr__` returns silently
  without raising, so the assignment is a no-op and the update commits with
  no change — `applyUpdate` therefore returns the record unchanged for an
  unknown name.  It returns `none` only when the value cannot inhabit the
  column, matching the bind-time conversion failure surfacing at commit; no
  claim exercises that path.
* A runtime storage failure (the underlying store raising on write/read) is
  injected through an explicit `fault : Bool` argument: when it is `true` the
  statement execution or commit raises, and the operation takes its `except`
  branch.
* `select_fd` returns a `ReadResult`: `raised` for the `ValueError` that
  propagates out of the filter+limit validation, `failed` for the caught
  exception path that returns `None`, and `ok` for a returned row sequence.
  `fetchmany(count)` is modelled as `List.take` for a positive count; a
  negative count makes the fetch raise inside the `try` (`islice` rejects a
  negative stop), giving the `failed` outcome.
-/

/-- A dynamically typed value, as handed to the filter/update dictionaries.
`str` carries text columns, `dateV` date columns, `dec` the exact decimal
columns, and `optInt` the nullable integer columns (`period`, `id`). -/
inductive Value where
  | str (s : String)
  | dateV (d : Int)
  | dec (q : Rat)
  | optInt (n : Option Int)
deriving DecidableEq, Repr

/-- The `FixedDeposit` table model: the fields of `FixedDepositModel` plus the
primary key `id`, which is `none` on a draft not yet persisted. -/
structure FixedDeposit where
  holder_name : String
  bank_name : String
  deposited_date : Int
  maturity_date : Int
  principal_amount : Rat
  maturity_amount : Rat
  interest_rate : Rat
  period : Option Int
  id : Option Int
deriving DecidableEq, Repr

/-- Outcome of `select_fd`: a propagated `ValueError`, the caught-exception
`None` return, or a successfully fetched row sequence. -/
inductive ReadResult where
  | raised (msg : String)
  | failed
  | ok (rows : List FixedDeposit)
deriving DecidableEq, Repr

/-- The derived accessor `time_period`: the duration between the deposited and
maturity dates. -/
def FixedDeposit.time_period (fd : FixedDeposit) : Int :=
  fd.maturity_date - fd.deposited_date

/-- Whether a string names one of the nine attributes of the `FixedDeposit`
model (the set on which `getattr` / instrumented `setattr` succeed). -/
def knownField (k : String) : Bool :=
  k == "holder_name" || k == "bank_name" || k == "deposited_date" ||
  k == "maturity_date" || k == "principal_amount" || k == "maturity_amount" ||
  k == "interest_rate" || k == "period" || k == "id"

/-- `getattr` on a row by field name, yielding the column value. -/
def getField (fd : FixedDeposit) (k : String) : Option Value :=
  if k == "holder_name" then some (Value.str fd.holder_name)
  else if k == "bank_name" then some (Value.str fd.bank_name)
  else if k == "deposited_date" then some (Value.dateV fd.deposited_date)
  else if k == "maturity_date" then some (Value.dateV fd.maturity_date)
  else if k == "principal_amount" then some (Value.dec fd.principal_amount)
  else if k == "maturity_amount" then some (Value.dec fd.maturity_amount)
  else if k == "interest_rate" then some (Value.dec fd.interest_rate)
  else if k == "period" then some (Value.optInt fd.period)
  else if k == "id" then some (Value.optInt fd.id)
  else none

/-- `setattr` on a row by field name.  On a `table=True` SQLModel instance an
assignment to a name that is not a model field is silently ignored (the
record is returned unchanged); `none` models only a value that cannot inhabit
the column, whose conversion failure raises at commit time. -/
def applyUpdate (fd : FixedDeposit) (k : String) (v : Value) : Option FixedDeposit :=
  if k == "holder_name" then
    match v with | Value.str s => some { fd with holder_name := s } | _ => none
  else if k == "bank_name" then
    match v with | Value.str s => some { fd with bank_name := s } | _ => none
  else if k == "deposited_date" then
    match v with | Value.dateV d => some { fd with deposited_date := d } | _ => none
  else if k == "maturity_date" then
    match v with | Value.dateV d => some { fd with maturity_date := d } | _ => none
  else if k == "principal_amount" then
    match v with | Value.dec q => some { fd with principal_amount := q } | _ => none
  else if k == "maturity_amount" then
    match v with | Value.dec q => some { fd with maturity_amount := q } | _ => none
  else if k == "interest_rate" then
    match v with | Value.dec q => some { fd with interest_rate := q } | _ => none
  else if k == "period" then
    match v with | Value.optInt n => some { fd with period := n } | _ => none
  else if k == "id" then
    match v with | Value.optInt n => some { fd with id := n } | _ => none
  else some fd

/-- The `for key, value in updates.items(): setattr(fd, key, value)` loop;
`none` as soon as one assignment raises. -/
def applyUpdates (fd : FixedDeposit) : List (String × Value) → Option FixedDeposit
  | [] => some fd
  | (k, v) :: rest =>
    match applyUpdate fd k v with
    | none => none
    | some fd2 => applyUpdates fd2 rest

/-- One `key=value` clause of the equality filter, `col(getattr(...)) == value`,
conjoined over all entries of the condition dictionary. -/
def matchesCond (fd : FixedDeposit) (cond : List (String × Value)) : Bool :=
  cond.all (fun kv => getField fd kv.1 == some kv.2)

/-- The largest primary key in use (0 on an empty table); SQLite assigns
`maxId db + 1` to the next inserted row. -/
def maxId : List FixedDeposit → Int
  | [] => 0
  | fd :: rest => max (fd.id.getD 0) (maxId rest)

/-- `session.get(FixedDeposit, i)`: the stored row with primary key `i`. -/
def find (db : List FixedDeposit) (i : Int) : Option FixedDeposit :=
  db.find? (fun fd => fd.id == some i)

/-- Python truthiness of the `condition` argument: a non-`None`, non-empty
dictionary. -/
def condTruthy : Option (List (String × Value)) → Bool
  | none => false
  | some cond => !cond.isEmpty

/-- Python truthiness of the `count` argument: a non-`None`, nonzero integer. -/
def countTruthy : Option Int → Bool
  | none => false
  | some c => c != 0

/-- `FDDataBase.add_new_fd`: insert the row, committing a freshly assigned
primary key for a draft (an explicitly provided key is inserted as given and a
key conflict takes the `except` branch); on failure roll back and return
`None`. -/
def add_new_fd (db : List FixedDeposit) (fd : FixedDeposit) (fault : Bool) :
    Option FixedDeposit × List FixedDeposit :=
  if fault then (none, db)
  else
    match fd.id with
    | none =>
      let assigned := { fd with id := some (maxId db + 1) }
      (some assigned, db ++ [assigned])
    | some j =>
      if (find db j).isSome then (none, db)
      else (some fd, db ++ [fd])

/-- `FDDataBase.select_fd`: raise `ValueError` when both arguments are truthy;
otherwise build the filtered statement (an unknown field name raises inside
the `try`, caught as `failed`), execute it (a storage fault likewise), and
return all rows or `fetchmany(count)` of them (a negative count makes the
fetch raise, caught as `failed`). -/
def select_fd (db : List FixedDeposit) (condition : Option (List (String × Value)))
    (count : Option Int) (fault : Bool) : ReadResult :=
  if condTruthy condition && countTruthy count then
    ReadResult.raised "You cannot pass both condition and count at the same time."
  else
    let cond := condition.getD []
    if cond.all (fun kv => knownField kv.1) then
      if fault then ReadResult.failed
      else
        let rows := db.filter (fun fd => matchesCond fd cond)
        if countTruthy count then
          if count.getD 0 < 0 then ReadResult.failed
          else ReadResult.ok (rows.take (count.getD 0).toNat)
        else ReadResult.ok rows
    else ReadResult.failed

/-- `FDDataBase.update_fd`: fetch by primary key, report `False` when absent;
apply each assignment (an unknown field name raises, caught with a rollback as
`False`); commit, a storage fault likewise rolling back to `False`. -/
def update_fd (db : List FixedDeposit) (fd_id : Int) (updates : List (String × Value))
    (fault : Bool) : Bool × List FixedDeposit :=
  match find db fd_id with
  | none => (false, db)
  | some fd =>
    match applyUpdates fd updates with
    | none => (false, db)
    | some fd2 =>
      if fault then (false, db)
      else (true, db.map (fun r => if r.id == some fd_id then fd2 else r))

/-- `FDDataBase.delete_fd`: fetch by primary key, report `False` when absent;
otherwise delete the row and commit, a storage fault rolling back to
`False`. -/
def delete_fd (db : List FixedDeposit) (fd_id : Int) (fault : Bool) :
    Bool × List FixedDeposit :=
  match find db fd_id with
  | none => (false, db)
  | some _ =>
    if fault then (false, db)
    else (true, db.filter (fun r => !(r.id == some fd_id)))

/-- `FDDataBase.get_all_fds`: all rows, degrading to the empty list on a
storage fault. -/
def get_all_fds (db : List FixedDeposit) (fault : Bool) : List FixedDeposit :=
  if fault then [] else db

/-- A sample draft record used by the concrete witnesses. -/
def sampleFd : FixedDeposit :=
  { holder_name := "Asha"
    bank_name := "SBI"
    deposited_date := 20240101
    maturity_date := 20240701
    principal_amount := 12345
    maturity_amount := 13000
    interest_rate := 7
    period := none
    id := none }

/-- The sample record as stored under primary key 1. -/
def storedFd : FixedDeposit := { sampleFd with id := some 1 }

/-- A one-row database holding `storedFd`. -/
def db0 : List FixedDeposit := [storedFd]

/-- A stored record at bank X, as in the filter-correctness test of the spec. -/
def fdA : FixedDeposit := { sampleFd with bank_name := "X", id := some 1 }

/-- A stored record at bank Y. -/
def fdB : FixedDeposit := { sampleFd with bank_name := "Y", id := some 2 }

/-- A two-row database with one record each at banks X and Y. -/
def dbXY : List FixedDeposit := [fdA, fdB]

/-- A row found by primary key carries that key. -/
theorem find_some_id (db : List FixedDeposit) (i : Int) (fd : FixedDeposit)
    (h : find db i = some fd) : fd.id = some i := by
  rw [find] at h
  have := List.find?_some h
  simpa using this

/-- The single-clause id filter holds exactly on the row with that key. -/
theorem matches_id (fd : FixedDeposit) (i : Int) :
    matchesCond fd [("id", Value.optInt (some i))] = (fd.id == some i) := by
  have hg : getField fd "id" = some (Value.optInt fd.id) := rfl
  rw [matchesCond, List.all_cons, List.all_nil, Bool.and_true, hg]
  cases hd : fd.id == some i with
  | false =>
    have hne : fd.id ≠ some i := by simpa using hd
    simp [hne]
  | true =>
    have he : fd.id = some i := by simpa using hd
    simp [he]

/-- Every primary key in use is bounded by `maxId`. -/
theorem id_le_maxId (db : List FixedDeposit) :
    ∀ fd ∈ db, ∀ j : Int, fd.id = some j → j ≤ maxId db := by
  induction db with
  | nil => intro fd hm; simp at hm
  | cons r rest ih =>
    intro fd hm j hj
    rcases List.mem_cons.mp hm with h | h
    · subst h
      simp only [maxId, hj]
      exact le_max_of_le_left (by simp)
    · exact le_trans (ih fd h j hj) (le_max_right _ _)

/-- Rows whose key is below a fresh id never pass the id filter for it. -/
theorem filter_id_fresh (db : List FixedDeposit) (i : Int) (h : maxId db < i) :
    db.filter (fun fd => matchesCond fd [("id", Value.optInt (some i))]) = [] := by
  rw [List.filter_eq_nil_iff]
  intro fd hm
  rw [matches_id]
  intro hbeq
  have he : fd.id = some i := by simpa using hbeq
  have := id_le_maxId db fd hm i he
  omega

/-- Claim C1: a read call in which both the equality filter and the maximum
result count are supplied (truthy) is rejected by raising the `ValueError`
contract violation, regardless of the database contents, and no record subset
is chosen. -/
theorem C1_filter_and_limit_rejected (db : List FixedDeposit)
    (condition : Option (List (String × Value))) (count : Option Int) (fault : Bool)
    (h1 : condTruthy condition = true) (h2 : countTruthy count = true) :
    select_fd db condition count fault
      = ReadResult.raised "You cannot pass both condition and count at the same time." := by
  simp [select_fd, h1, h2]

/-- Claim C1 witness: the rejection at a concrete call with a one-clause
filter and a limit of 5 on an empty database. -/
theorem C1_witness :
    select_fd [] (some [("bank_name", Value.str "SBI")]) (some 5) false
      = ReadResult.raised "You cannot pass both condition and count at the same time." :=
  C1_filter_and_limit_rejected [] (some [("bank_name", Value.str "SBI")]) (some 5) false
    rfl rfl

/-- Claim C5: when the underlying write raises, `add_new_fd` takes its
`except` branch: the open transaction is rolled back (the stored rows are
unchanged), the caller receives the `None` not-created signal rather than a
partial record, and no exception propagates. -/
theorem C5_create_failure_rolls_back (db : List FixedDeposit) (fd : FixedDeposit) :
    add_new_fd db fd true = (none, db) :=
  rfl

/-- Claim C10: the filter+limit rejection needs a truthy filter and a truthy
count: an empty filter dictionary together with a limit behaves exactly as a
limit-only read, and a non-empty filter over known fields together with a
count of 0 is accepted and returns all matching rows (count 0 acts as no
limit). -/
theorem C10_truthiness_edge_cases (db : List FixedDeposit)
    (cond : List (String × Value)) (hne : cond ≠ [])
    (hk : cond.all (fun kv => knownField kv.1) = true) :
    (∀ count : Option Int, ∀ fault : Bool,
        select_fd db (some []) count fault = select_fd db none count fault) ∧
    select_fd db (some cond) (some 0) false
      = ReadResult.ok (db.filter (fun fd => matchesCond fd cond)) := by
  refine ⟨fun count fault => rfl, ?_⟩
  simp [select_fd, countTruthy, hk]

/-- Claim C10 witness: the two accepted edge cases at a concrete database and
a concrete one-clause filter. -/
theorem C10_witness :
    (∀ count : Option Int, ∀ fault : Bool,
        select_fd db0 (some []) count fault = select_fd db0 none count fault) ∧
    select_fd db0 (some [("bank_name", Value.str "SBI")]) (some 0) false
      = ReadResult.ok
          (db0.filter (fun fd => matchesCond fd [("bank_name", Value.str "SBI")])) :=
  C10_truthiness_edge_cases db0 [("bank_name", Value.str "SBI")] (by decide) rfl

/-- Claim C4: a filter-only read over known field names succeeds and returns
exactly the rows on which every filter clause holds, the filter being the
conjunction (logical AND) of the per-field equalities, and no others. -/
theorem C4_filter_only_conjunction (db : List FixedDeposit)
    (cond : List (String × Value)) (hne : cond ≠ [])
    (hk : cond.all (fun kv => knownField kv.1) = true) :
    select_fd db (some cond) none false
      = ReadResult.ok (db.filter (fun fd => matchesCond fd cond)) ∧
    ∀ fd : FixedDeposit,
      fd ∈ db.filter (fun fd => matchesCond fd cond)
        ↔ fd ∈ db ∧ ∀ kv ∈ cond, getField fd kv.1 = some kv.2 := by
  refine ⟨by simp [select_fd, countTruthy, hk], ?_⟩
  intro fd
  simp [List.mem_filter, matchesCond, List.all_eq_true, beq_iff_eq]

/-- Claim C4 witness: with one record at bank X and one at bank Y, filtering
on bank X selects exactly the matching rows. -/
theorem C4_witness :
    select_fd dbXY (some [("bank_name", Value.str "X")]) none false
      = ReadResult.ok (dbXY.filter (fun fd => matchesCond fd [("bank_name", Value.str "X")])) ∧
    ∀ fd : FixedDeposit,
      fd ∈ dbXY.filter (fun fd => matchesCond fd [("bank_name", Value.str "X")])
        ↔ fd ∈ dbXY ∧ ∀ kv ∈ [("bank_name", Value.str "X")], getField fd kv.1 = some kv.2 :=
  C4_filter_only_conjunction dbXY [("bank_name", Value.str "X")] (by decide) rfl

/-- Claim C7 counterexample: filtering on a field name that does not exist on
the record yields exactly the same `None` read-failure value that a pure
storage fault yields, so the contract violation is not distinguishable from
the runtime/storage-failure outcome (it is distinguishable from an empty
result). -/
theorem C7_counterexample :
    select_fd [] (some [("no_such_field", Value.str "x")]) none false
      = select_fd [] none none true ∧
    select_fd [] (some [("no_such_field", Value.str "x")]) none false
      ≠ ReadResult.ok [] := by
  exact ⟨rfl, by decide⟩

/-- Claim C7 (amended): a read whose filter contains an unknown field name
(and whose count is not truthy, so the filter+limit rejection does not fire)
fails inside the operation: it returns the `None` read-failed signal, which
differs from every successful row sequence (in particular from an empty
result) but coincides with the storage-failure outcome. -/
theorem C7_unknown_field_read (db : List FixedDeposit) (cond : List (String × Value))
    (count : Option Int) (hc : countTruthy count = false)
    (h : ∃ kv ∈ cond, knownField kv.1 = false) :
    select_fd db (some cond) count false = ReadResult.failed ∧
    select_fd db (some cond) count false = select_fd db none count true ∧
    ∀ rows : List FixedDeposit,
      select_fd db (some cond) count false ≠ ReadResult.ok rows := by
  have hall : (cond.all (fun kv => knownField kv.1)) = false := by
    rcases h with ⟨kv, hmem, hkv⟩
    rw [List.all_eq_false]
    exact ⟨kv, hmem, by simp [hkv]⟩
  have h1 : select_fd db (some cond) count false = ReadResult.failed := by
    simp [select_fd, hc, hall]
  have h2 : select_fd db none count true = ReadResult.failed := by
    simp [select_fd, condTruthy]
  refine ⟨h1, by rw [h1, h2], ?_⟩
  intro rows hx
  rw [h1] at hx
  cases hx

/-- Claim C7 witness: the amended behavior at a concrete unknown-field
filter over the one-row database. -/
theorem C7_witness :
    select_fd db0 (some [("no_such_field", Value.str "x")]) none false
      = ReadResult.failed ∧
    select_fd db0 (some [("no_such_field", Value.str "x")]) none false
      = select_fd db0 none none true ∧
    ∀ rows : List FixedDeposit,
      select_fd db0 (some [("no_such_field", Value.str "x")]) none false
        ≠ ReadResult.ok rows :=
  C7_unknown_field_read db0 [("no_such_field", Value.str "x")] none rfl (by decide)

/-- Claim C2: creating a draft record (`id` unset) and reading it back by the
assigned id with an id-equality filter yields exactly one record, equal to the
draft on every field except the freshly store-assigned `id`. -/
theorem C2_create_read_roundtrip (db : List FixedDeposit) (fd : FixedDeposit)
    (h : fd.id = none) :
    (add_new_fd db fd false).1 = some { fd with id := some (maxId db + 1) } ∧
    select_fd (add_new_fd db fd false).2
        (some [("id", Value.optInt (some (maxId db + 1)))]) none false
      = ReadResult.ok [{ fd with id := some (maxId db + 1) }] := by
  have hadd : add_new_fd db fd false
      = (some { fd with id := some (maxId db + 1) },
         db ++ [{ fd with id := some (maxId db + 1) }]) := by
    simp [add_new_fd, h]
  refine ⟨by rw [hadd], ?_⟩
  rw [hadd]
  have hsel : select_fd (db ++ [{ fd with id := some (maxId db + 1) }])
      (some [("id", Value.optInt (some (maxId db + 1)))]) none false
      = ReadResult.ok ((db ++ [{ fd with id := some (maxId db + 1) }]).filter
          (fun r => matchesCond r [("id", Value.optInt (some (maxId db + 1)))])) := by
    simp [select_fd, countTruthy, knownField]
  rw [hsel, List.filter_append, filter_id_fresh db _ (by omega)]
  simp [matches_id]

/-- Claim C2 witness: the round trip for the sample draft record on the empty
database. -/
theorem C2_witness :
    (add_new_fd [] sampleFd false).1 = some { sampleFd with id := some (maxId [] + 1) } ∧
    select_fd (add_new_fd [] sampleFd false).2
        (some [("id", Value.optInt (some (maxId [] + 1)))]) none false
      = ReadResult.ok [{ sampleFd with id := some (maxId [] + 1) }] :=
  C2_create_read_roundtrip [] sampleFd rfl

/-- Replacing the row with a given key leaves it findable as the replacement. -/
theorem find_map_replace (i : Int) (fd2 : FixedDeposit) (h2 : fd2.id = some i) :
    ∀ db : List FixedDeposit, (find db i).isSome = true →
      find (db.map (fun r => if r.id == some i then fd2 else r)) i = some fd2 := by
  intro db
  induction db with
  | nil =>
    intro h
    simp [find] at h
  | cons r rest ih =>
    intro h
    rw [List.map_cons]
    cases hr : r.id == some i with
    | true =>
      have hp : (fd2.id == some i) = true := by simp [h2]
      rw [if_pos rfl, find]
      simp only [List.find?_cons, hp]
    | false =>
      rw [if_neg (by simp : ¬(false = true)), find]
      simp only [List.find?_cons, hr]
      have h3 : (find rest i).isSome = true := by
        rw [find] at h
        simp only [List.find?_cons, hr] at h
        exact h
      exact ih h3

/-- Rows with a different key survive the replacement map unchanged. -/
theorem mem_map_replace_of_ne (db : List FixedDeposit) (i : Int)
    (fd2 r : FixedDeposit) (hmem : r ∈ db) (hne : r.id ≠ some i) :
    r ∈ db.map (fun s => if s.id == some i then fd2 else s) := by
  have hfix : (fun s => if s.id == some i then fd2 else s) r = r := by
    simp [hne]
  rw [← hfix]
  exact List.mem_map_of_mem _ hmem

/-- After filtering a key out, no row with that key can be found. -/
theorem find_filter_out (db : List FixedDeposit) (i : Int) :
    find (db.filter (fun r => !(r.id == some i))) i = none := by
  rw [find, List.find?_eq_none]
  intro x hx
  have h2 := (List.mem_filter.mp hx).2
  simp at h2
  simp [h2]

/-- Claim C8: updating only `interest_rate` on a stored record reports
success, the record keeps every other field, every row with a different id is
untouched, and updating an id with no stored record reports `False` with the
stored rows entirely unchanged (no record created or modified). -/
theorem C8_update_partiality (db : List FixedDeposit) (i : Int) (fd : FixedDeposit)
    (q : Rat) (hf : find db i = some fd) :
    (update_fd db i [("interest_rate", Value.dec q)] false).1 = true ∧
    find (update_fd db i [("interest_rate", Value.dec q)] false).2 i
      = some { fd with interest_rate := q } ∧
    (∀ r ∈ db, r.id ≠ some i →
      r ∈ (update_fd db i [("interest_rate", Value.dec q)] false).2) ∧
    (∀ j : Int, find db j = none →
      update_fd db j [("interest_rate", Value.dec q)] false = (false, db)) := by
  have happ : applyUpdates fd [("interest_rate", Value.dec q)]
      = some { fd with interest_rate := q } := rfl
  have hupd : update_fd db i [("interest_rate", Value.dec q)] false
      = (true, db.map
          (fun r => if r.id == some i then { fd with interest_rate := q } else r)) := by
    simp [update_fd, hf, happ]
  refine ⟨by rw [hupd], ?_, ?_, ?_⟩
  · rw [hupd]
    exact find_map_replace i { fd with interest_rate := q }
      (find_some_id db i fd hf) db (by rw [hf]; rfl)
  · intro r hmem hne
    rw [hupd]
    exact mem_map_replace_of_ne db i _ r hmem hne
  · intro j hj
    simp [update_fd, hj]

/-- Claim C8 witness: the partial update at the concrete one-row database. -/
theorem C8_witness :
    (update_fd db0 1 [("interest_rate", Value.dec 8)] false).1 = true ∧
    find (update_fd db0 1 [("interest_rate", Value.dec 8)] false).2 1
      = some { storedFd with interest_rate := 8 } ∧
    (∀ r ∈ db0, r.id ≠ some 1 →
      r ∈ (update_fd db0 1 [("interest_rate", Value.dec 8)] false).2) ∧
    (∀ j : Int, find db0 j = none →
      update_fd db0 j [("interest_rate", Value.dec 8)] false = (false, db0)) :=
  C8_update_partiality db0 1 storedFd 8 rfl

/-- Claim C9: deleting a stored id reports success and a subsequent read by
that id returns no record; a second delete of the same id reports `False` and
changes nothing, so deleting twice is safe. -/
theorem C9_delete_idempotence (db : List FixedDeposit) (i : Int) (fd : FixedDeposit)
    (hf : find db i = some fd) :
    (delete_fd db i false).1 = true ∧
    select_fd (delete_fd db i false).2 (some [("id", Value.optInt (some i))]) none false
      = ReadResult.ok [] ∧
    delete_fd (delete_fd db i false).2 i false = (false, (delete_fd db i false).2) := by
  have hdel : delete_fd db i false = (true, db.filter (fun r => !(r.id == some i))) := by
    simp [delete_fd, hf]
  refine ⟨by rw [hdel], ?_, ?_⟩
  · rw [hdel]
    have hsel : select_fd (db.filter (fun r => !(r.id == some i)))
        (some [("id", Value.optInt (some i))]) none false
        = ReadResult.ok ((db.filter (fun r => !(r.id == some i))).filter
            (fun r => matchesCond r [("id", Value.optInt (some i))])) := by
      simp [select_fd, countTruthy, knownField]
    rw [hsel]
    congr 1
    rw [List.filter_eq_nil_iff]
    intro a ha
    have h2 := (List.mem_filter.mp ha).2
    rw [matches_id]
    simp at h2
    simp [h2]
  · rw [hdel]
    simp [delete_fd, find_filter_out db i]

/-- Claim C9 witness: the delete sequence at the concrete one-row database. -/
theorem C9_witness :
    (delete_fd db0 1 false).1 = true ∧
    select_fd (delete_fd db0 1 false).2 (some [("id", Value.optInt (some 1))]) none false
      = ReadResult.ok [] ∧
    delete_fd (delete_fd db0 1 false).2 1 false = (false, (delete_fd db0 1 false).2) :=
  C9_delete_idempotence db0 1 storedFd rfl
